import Mathlib

/-!
Verification of the FuzzerPy repository (two engine variants):
`src/Fuzzerpy.py` (v6 base edition, `FuzzerPyEngine`) and
`src/FuzzerPy_BugBounty.py` (v7.1 bug bounty edition, `FuzzerPyBugBountyEngine`).

The asynchronous engines are embedded as sequential state-transition
functions: the network is an oracle assigning to every attempt of every
candidate either an HTTP response or an exception, and one candidate scan
is the fold of the per-attempt body of `scan_url` over that oracle.
Wall-clock time for the rate limiter is an explicit rational component of
the state, advanced exactly by the sleeps the code performs.
-/

/-- The result the network oracle assigns to one `session.get` attempt:
an HTTP response (status, optional `Location` header, body length), an
`asyncio.TimeoutError`, an `aiohttp.ClientError`, or any other exception. -/
inductive AttemptResult where
  | response (status : Nat) (location : Option String) (bodyLen : Nat)
  | timeoutErr
  | clientErr
  | otherExc
deriving DecidableEq, Repr

/-- Terminal classification of one candidate, the `ProbeOutcome` of the spec.
A redirect hit carries the resolved location string (header value or the
sentinel); 200/403 hits carry no location. -/
inductive Outcome where
  | hit (status : Nat) (location : Option String)
  | notFound
  | otherStatus (status : Nat)
  | transientError
  | fatalAbort
deriving DecidableEq, Repr

/-- The payload expansion loop shared by `FuzzerPyBugBountyEngine.run` and
`FuzzerPyEngine.run`: for each word append the bare word, then `word.ext`
for each extension in order. -/
def expandPayloads (words exts : List String) : List String :=
  (words.map (fun w => w :: exts.map (fun e => w ++ "." ++ e))).flatten

/-- `RateLimiter.__init__`: `min_interval = 1.0 / max_per_second`. -/
def minInterval (maxPerSecond : ℚ) : ℚ := 1 / maxPerSecond

/-- State of `RateLimiter` together with an explicit wall clock:
`last_request_time`, `request_count`, and the current `time.time()`. -/
structure RLState where
  lastRequestTime : ℚ
  requestCount : Nat
  clock : ℚ
deriving DecidableEq, Repr

/-- `RateLimiter.wait`: if the gap since the last request is below the
minimum interval, sleep the remaining delta (advancing the clock by exactly
that amount), then stamp the new last-request time and bump the count. -/
def rlWait (mi : ℚ) (st : RLState) : RLState :=
  let timeSinceLast := st.clock - st.lastRequestTime
  let clock1 := if timeSinceLast < mi then st.clock + (mi - timeSinceLast) else st.clock
  { lastRequestTime := clock1, requestCount := st.requestCount + 1, clock := clock1 }

/-- N sequential calls of `RateLimiter.wait`; before each call the ambient
clock may advance by an arbitrary nonnegative amount from the list. -/
def rlRun (mi : ℚ) (advances : List ℚ) (st : RLState) : RLState :=
  advances.foldl (fun s d => rlWait mi { s with clock := s.clock + d }) st

/-- `RateLimiter.get_current_rate`: `request_count / elapsed` guarded by
`elapsed > 0`, else `0`. -/
def getCurrentRate (requestCount : Nat) (elapsed : ℚ) : ℚ :=
  if 0 < elapsed then (requestCount : ℚ) / elapsed else 0

/-- The average-rate expression of `FuzzerPyBugBountyEngine.print_summary`:
`total/duration if duration > 0 else 0`. -/
def summaryAvgRate (total : Nat) (duration : ℚ) : ℚ :=
  if 0 < duration then (total : ℚ) / duration else 0

theorem expandPayloads_nil (exts : List String) : expandPayloads [] exts = [] := rfl

theorem expandPayloads_cons (w : String) (ws exts : List String) :
    expandPayloads (w :: ws) exts =
      (w :: exts.map (fun e => w ++ "." ++ e)) ++ expandPayloads ws exts := by
  simp [expandPayloads]

theorem expandPayloads_length (words exts : List String) :
    (expandPayloads words exts).length = words.length * (1 + exts.length) := by
  induction words with
  | nil => simp [expandPayloads]
  | cons w ws ih =>
      rw [expandPayloads_cons]
      simp only [List.length_append, List.length_cons, List.length_map, ih]
      ring

/-- The `stats` dictionary of `FuzzerPyBugBountyEngine.__init__`. -/
structure BBStats where
  total : Nat
  s200 : Nat
  s403 : Nat
  s302 : Nat
  s404 : Nat
  errors : Nat
  consecutiveErrors : Nat
deriving DecidableEq, Repr

/-- Mutable state of the bug bounty engine: the stats dictionary,
`found_urls`, the lines appended to the output file, `should_stop`, the
number of circuit breaker warning emissions, and the number of
`session.get` calls actually issued. -/
structure BBState where
  stats : BBStats
  foundUrls : List String
  savedLines : List String
  shouldStop : Bool
  warnings : Nat
  requestsIssued : Nat
deriving DecidableEq, Repr

/-- Engine state at the start of a run. -/
def BBState.init : BBState :=
  { stats := ⟨0, 0, 0, 0, 0, 0, 0⟩, foundUrls := [], savedLines := [],
    shouldStop := false, warnings := 0, requestsIssued := 0 }

/-- Configuration of the bug bounty engine relevant to scanning. -/
structure BBConfig where
  target : String
  maxRetries : Nat
  stopOnErrors : Nat
deriving Repr

/-- The shared body of the three `except` branches of the bug bounty
`scan_url`: bump `errors` and `consecutive_errors`. -/
def BBState.bumpErrors (st : BBState) : BBState :=
  { st with stats :=
      { st.stats with
          errors := st.stats.errors + 1
          consecutiveErrors := st.stats.consecutiveErrors + 1 } }

/-- One iteration of the attempt loop of `FuzzerPyBugBountyEngine.scan_url`:
issue the request; on a response bump `total`, reset `consecutive_errors`
and classify (200, 403, redirect, 404, other), breaking out of the loop; on
a timeout or client error bump `errors` and `consecutive_errors` and
continue; on any other exception bump both and break. `none` means the
loop continues with another attempt. -/
def attemptStepBB (url : String) (res : AttemptResult) (st : BBState) :
    BBState × Option Outcome :=
  let st0 := { st with requestsIssued := st.requestsIssued + 1 }
  match res with
  | .response status location _ =>
      let s1 := { st0 with stats :=
        { st0.stats with total := st0.stats.total + 1, consecutiveErrors := 0 } }
      if status = 200 then
        ({ s1 with stats := { s1.stats with s200 := s1.stats.s200 + 1 },
                   foundUrls := s1.foundUrls ++ [url],
                   savedLines := s1.savedLines ++ ["[200] " ++ url] },
         some (.hit 200 none))
      else if status = 403 then
        ({ s1 with stats := { s1.stats with s403 := s1.stats.s403 + 1 },
                   foundUrls := s1.foundUrls ++ [url],
                   savedLines := s1.savedLines ++ ["[403] " ++ url] },
         some (.hit 403 none))
      else if status = 301 ∨ status = 302 ∨ status = 307 ∨ status = 308 then
        let loc := location.getD "Unknown"
        ({ s1 with stats := { s1.stats with s302 := s1.stats.s302 + 1 },
                   foundUrls := s1.foundUrls ++ [url],
                   savedLines := s1.savedLines ++
                     ["[" ++ toString status ++ "] " ++ url ++ " -> " ++ loc] },
         some (.hit status (some loc)))
      else if status = 404 then
        ({ s1 with stats := { s1.stats with s404 := s1.stats.s404 + 1 } },
         some .notFound)
      else (s1, some (.otherStatus status))
  | .timeoutErr => (st0.bumpErrors, none)
  | .clientErr => (st0.bumpErrors, none)
  | .otherExc => (st0.bumpErrors, some .fatalAbort)

/-- The `for attempt in range(max_retries + 1)` loop of the bug bounty
`scan_url`, driven by fuel (remaining attempts). Exhausting all attempts
on transient failures yields the terminal `TransientError`. -/
def attemptsBB (oracle : Nat → AttemptResult) (url : String) :
    Nat → Nat → BBState → BBState × Outcome
  | _, 0, st => (st, .transientError)
  | attempt, fuel + 1, st =>
      match attemptStepBB url (oracle attempt) st with
      | (st1, some o) => (st1, o)
      | (st1, none) => attemptsBB oracle url (attempt + 1) fuel st1

/-- `FuzzerPyBugBountyEngine.scan_url` for one candidate path: skip
entirely when `should_stop` was already observed (`none` outcome), else
run the attempt loop and finally trip the breaker (set `should_stop`,
emit the warning) when `consecutive_errors` reached `stop_on_errors`. -/
def scanUrlBB (cfg : BBConfig) (oracle : Nat → AttemptResult) (path : String)
    (st : BBState) : BBState × Option Outcome :=
  if st.shouldStop then (st, none)
  else
    let url := cfg.target ++ "/" ++ path
    let r := attemptsBB oracle url 0 (cfg.maxRetries + 1) st
    let st2 :=
      if cfg.stopOnErrors ≤ r.1.stats.consecutiveErrors then
        { r.1 with shouldStop := true, warnings := r.1.warnings + 1 }
      else r.1
    (st2, some r.2)

/-- Sequential execution of the bug bounty run over a list of candidate
paths; candidate `i` draws its attempt results from `oracle i`. Returns
the final state and the per-candidate outcome (`none` = skipped). -/
def runBBPaths (cfg : BBConfig) (oracle : Nat → Nat → AttemptResult) :
    List String → Nat → BBState → BBState × List (Option Outcome)
  | [], _, st => (st, [])
  | p :: ps, i, st =>
      let r := scanUrlBB cfg (oracle i) p st
      let rest := runBBPaths cfg oracle ps (i + 1) r.1
      (rest.1, r.2 :: rest.2)

/-- `FuzzerPyBugBountyEngine.run`: expand the wordlist with the extensions
and scan every payload in order, starting from the fresh state. -/
def runBB (cfg : BBConfig) (words exts : List String)
    (oracle : Nat → Nat → AttemptResult) : BBState × List (Option Outcome) :=
  runBBPaths cfg oracle (expandPayloads words exts) 0 BBState.init

/-- Outcomes that correspond to a received HTTP response. -/
def Outcome.isResponse : Outcome → Bool
  | .hit _ _ => true
  | .notFound => true
  | .otherStatus _ => true
  | _ => false

/-- Whether a recorded per-candidate outcome is a received HTTP response. -/
def respondsOpt (o : Option Outcome) : Bool :=
  (o.map Outcome.isResponse).getD false

/-- Number of dispatched candidates whose outcome is an HTTP response. -/
def respondedCount (l : List (Option Outcome)) : Nat :=
  l.countP respondsOpt

/-- The summands of the spec sentence for `RunStats.total`: Hit, NotFound,
terminal TransientError, and any other HTTP status. -/
def claimedTotalCount (l : List (Option Outcome)) : Nat :=
  l.countP (fun o =>
    match o with
    | some (.hit _ _) => true
    | some .notFound => true
    | some (.otherStatus _) => true
    | some .transientError => true
    | _ => false)

/-- The `stats` dictionary of `FuzzerPyEngine.__init__` (v6 base edition):
no 404 bucket and no consecutive-error counter. -/
structure V6Stats where
  total : Nat
  s200 : Nat
  s403 : Nat
  s302 : Nat
  errors : Nat
deriving DecidableEq, Repr

/-- Mutable state of the v6 engine. -/
structure V6State where
  stats : V6Stats
  foundUrls : List String
  savedLines : List String
  requestsIssued : Nat
deriving DecidableEq, Repr

/-- v6 engine state at the start of a run. -/
def V6State.init : V6State :=
  { stats := ⟨0, 0, 0, 0, 0⟩, foundUrls := [], savedLines := [],
    requestsIssued := 0 }

/-- How one iteration of the v6 attempt loop ends when it breaks. -/
inductive V6Exit where
  | responded (status : Nat)
  | fatal
deriving DecidableEq, Repr

/-- One iteration of the attempt loop of `FuzzerPyEngine.scan_url`: on a
response bump `total` and classify — only 200, 403, 301 and 302 set a
message, and exactly those append to `found_urls` and the output file; on
a timeout or client error bump `errors` only when this was the final
attempt and continue; on any other exception break with no bookkeeping. -/
def attemptStepV6 (maxRetries attempt : Nat) (url : String)
    (res : AttemptResult) (st : V6State) : V6State × Option V6Exit :=
  let st0 := { st with requestsIssued := st.requestsIssued + 1 }
  match res with
  | .response status _ _ =>
      let s1 := { st0 with stats :=
        { st0.stats with total := st0.stats.total + 1 } }
      if status = 200 then
        ({ s1 with stats := { s1.stats with s200 := s1.stats.s200 + 1 },
                   foundUrls := s1.foundUrls ++ [url],
                   savedLines := s1.savedLines ++ ["[200] " ++ url] },
         some (.responded 200))
      else if status = 403 then
        ({ s1 with stats := { s1.stats with s403 := s1.stats.s403 + 1 },
                   foundUrls := s1.foundUrls ++ [url],
                   savedLines := s1.savedLines ++ ["[403] " ++ url] },
         some (.responded 403))
      else if status = 301 ∨ status = 302 then
        ({ s1 with stats := { s1.stats with s302 := s1.stats.s302 + 1 },
                   foundUrls := s1.foundUrls ++ [url],
                   savedLines := s1.savedLines ++
                     ["[" ++ toString status ++ "] " ++ url] },
         some (.responded status))
      else (s1, some (.responded status))
  | .timeoutErr =>
      (if attempt = maxRetries then
        { st0 with stats := { st0.stats with errors := st0.stats.errors + 1 } }
       else st0, none)
  | .clientErr =>
      (if attempt = maxRetries then
        { st0 with stats := { st0.stats with errors := st0.stats.errors + 1 } }
       else st0, none)
  | .otherExc => (st0, some .fatal)

/-- The `for attempt in range(max_retries + 1)` loop of the v6 `scan_url`.
`none` means every attempt failed transiently. -/
def attemptsV6 (maxRetries : Nat) (oracle : Nat → AttemptResult)
    (url : String) : Nat → Nat → V6State → V6State × Option V6Exit
  | _, 0, st => (st, none)
  | attempt, fuel + 1, st =>
      match attemptStepV6 maxRetries attempt url (oracle attempt) st with
      | (st1, some e) => (st1, some e)
      | (st1, none) => attemptsV6 maxRetries oracle url (attempt + 1) fuel st1

/-- `FuzzerPyEngine.scan_url` for one candidate path (the semaphore around
the loop is modelled separately as a transition system). -/
def scanUrlV6 (target : String) (maxRetries : Nat)
    (oracle : Nat → AttemptResult) (path : String) (st : V6State) :
    V6State × Option V6Exit :=
  attemptsV6 maxRetries oracle (target ++ "/" ++ path) 0 (maxRetries + 1) st

/-- Sequential execution of the v6 run over candidate paths. -/
def runV6Paths (target : String) (maxRetries : Nat)
    (oracle : Nat → Nat → AttemptResult) :
    List String → Nat → V6State → V6State
  | [], _, st => st
  | p :: ps, i, st =>
      runV6Paths target maxRetries oracle ps (i + 1)
        (scanUrlV6 target maxRetries (oracle i) p st).1

/-- `FuzzerPyEngine.run`: expand the wordlist and scan every payload. -/
def runV6 (target : String) (maxRetries : Nat) (words exts : List String)
    (oracle : Nat → Nat → AttemptResult) : V6State :=
  runV6Paths target maxRetries oracle (expandPayloads words exts) 0
    V6State.init

/-- Lifecycle phase of one probe task of `FuzzerPyEngine.scan_url` with
respect to `async with self.semaphore`: not yet admitted, holding a slot
(its network attempts happen only here), or finished. -/
inductive ProbePhase where
  | waiting
  | holding
  | done
deriving DecidableEq, Repr

/-- Number of probes currently holding a semaphore slot. -/
def holdersCount (ps : List ProbePhase) : Nat :=
  ps.countP (fun p => p = ProbePhase.holding)

/-- Interleaved small-step semantics of `asyncio.Semaphore(threads)` as
used by `FuzzerPyEngine.scan_url`: a waiting probe may be admitted only
while fewer than `cap` slots are held; a holding probe may finish. -/
inductive SemStep (cap : Nat) : List ProbePhase → List ProbePhase → Prop
  | acquire (ps : List ProbePhase) (i : Nat)
      (hi : ps[i]? = some ProbePhase.waiting)
      (hcap : holdersCount ps < cap) :
      SemStep cap ps (ps.set i ProbePhase.holding)
  | release (ps : List ProbePhase) (i : Nat)
      (hi : ps[i]? = some ProbePhase.holding) :
      SemStep cap ps (ps.set i ProbePhase.done)

/-- States reachable by a run of `n` probe tasks, all initially waiting. -/
def semReachable (cap n : Nat) (ps : List ProbePhase) : Prop :=
  Relation.ReflTransGen (SemStep cap) (List.replicate n ProbePhase.waiting) ps

/-- C6: the payload expander yields exactly
`len(words) * (1 + len(extensions))` paths, ordered as: for each word the
bare word first, then `word + "." + ext` for each extension in order;
in particular words `["admin","backup"]` with extensions `["bak"]` yield
`["admin","admin.bak","backup","backup.bak"]`. -/
theorem expandPayloads_count_and_order :
    (∀ words exts : List String,
      (expandPayloads words exts).length = words.length * (1 + exts.length)) ∧
    (∀ (w : String) (ws exts : List String),
      expandPayloads (w :: ws) exts =
        (w :: exts.map (fun e => w ++ "." ++ e)) ++ expandPayloads ws exts) ∧
    expandPayloads ["admin", "backup"] ["bak"] =
      ["admin", "admin.bak", "backup", "backup.bak"] :=
  ⟨expandPayloads_length, expandPayloads_cons, rfl⟩

/-- C7: with zero (or nonpositive) elapsed time, both the advisory current
rate and the final summary rate are reported as 0 with no division, and
zero attempts always report rate 0. -/
theorem report_rate_zero_guard (total count : Nat) (elapsed : ℚ)
    (h : elapsed ≤ 0) :
    getCurrentRate count elapsed = 0 ∧ summaryAvgRate total elapsed = 0 ∧
    (∀ e : ℚ, getCurrentRate 0 e = 0) ∧
    (∀ e : ℚ, summaryAvgRate 0 e = 0) := by
  refine ⟨?_, ?_, ?_, ?_⟩
  · rw [getCurrentRate, if_neg (not_lt.mpr h)]
  · rw [summaryAvgRate, if_neg (not_lt.mpr h)]
  · intro e
    rw [getCurrentRate]
    split <;> simp
  · intro e
    rw [summaryAvgRate]
    split <;> simp

/-- Witness for C7 at `elapsed = 0`. -/
theorem report_rate_zero_guard_witness :
    getCurrentRate 3 0 = 0 ∧ summaryAvgRate 5 0 = 0 :=
  ⟨(report_rate_zero_guard 5 3 0 le_rfl).1,
   (report_rate_zero_guard 5 3 0 le_rfl).2.1⟩

/-- C4: in the bug bounty `scan_url`, any received HTTP response (whatever
its status) resets `consecutive_errors` to 0, while each timeout, client
error or other exception increments it by exactly 1. -/
theorem consecutiveErrors_reset_and_increment (url : String) (st : BBState)
    (status : Nat) (location : Option String) (bodyLen : Nat) :
    (attemptStepBB url (.response status location bodyLen)
        st).1.stats.consecutiveErrors = 0 ∧
    (attemptStepBB url .timeoutErr st).1.stats.consecutiveErrors =
      st.stats.consecutiveErrors + 1 ∧
    (attemptStepBB url .clientErr st).1.stats.consecutiveErrors =
      st.stats.consecutiveErrors + 1 ∧
    (attemptStepBB url .otherExc st).1.stats.consecutiveErrors =
      st.stats.consecutiveErrors + 1 := by
  refine ⟨?_, rfl, rfl, rfl⟩
  rw [attemptStepBB]
  split_ifs <;> rfl

theorem attemptStepBB_response_total (url : String) (status : Nat)
    (location : Option String) (bodyLen : Nat) (st : BBState) :
    (attemptStepBB url (.response status location bodyLen) st).1.stats.total =
      st.stats.total + 1 ∧
    ((attemptStepBB url (.response status location bodyLen) st).2.map
      Outcome.isResponse) = some true := by
  rw [attemptStepBB]
  split_ifs <;> exact ⟨rfl, rfl⟩

theorem attemptsBB_total (oracle : Nat → AttemptResult) (url : String) :
    ∀ (fuel attempt : Nat) (st : BBState),
      (attemptsBB oracle url attempt fuel st).1.stats.total =
        st.stats.total +
          (if (attemptsBB oracle url attempt fuel st).2.isResponse then 1
           else 0) := by
  intro fuel
  induction fuel with
  | zero => intro attempt st; rfl
  | succ n ih =>
      intro attempt st
      rw [attemptsBB]
      cases hres : oracle attempt with
      | response status location bodyLen =>
          obtain ⟨h1, h2⟩ :=
            attemptStepBB_response_total url status location bodyLen st
          rcases hs :
            attemptStepBB url (AttemptResult.response status location bodyLen) st
            with ⟨st1, o⟩
          rw [hs] at h1 h2
          cases o with
          | none => simp at h2
          | some o2 =>
              simp only [Option.map_some', Option.some.injEq] at h2
              simp only [h2]
              simp
              exact h1
      | timeoutErr =>
          simp only [attemptStepBB]
          rw [ih]; rfl
      | clientErr =>
          simp only [attemptStepBB]
          rw [ih]; rfl
      | otherExc =>
          simp only [attemptStepBB]
          rfl

theorem scanUrlBB_total (cfg : BBConfig) (oracle : Nat → AttemptResult)
    (path : String) (st : BBState) :
    (scanUrlBB cfg oracle path st).1.stats.total =
      st.stats.total +
        (if respondsOpt (scanUrlBB cfg oracle path st).2 then 1 else 0) := by
  rw [scanUrlBB]
  by_cases h : st.shouldStop
  · simp [h, respondsOpt]
  · have hmain := attemptsBB_total oracle (cfg.target ++ "/" ++ path)
      (cfg.maxRetries + 1) 0 st
    simp only [h, if_false, Bool.false_eq_true, respondsOpt,
      Option.map_some', Option.getD_some]
    split_ifs with htrip hresp hresp <;> simp only [hresp, if_true, if_false,
      Bool.false_eq_true] at hmain <;> simpa using hmain

theorem runBBPaths_total (cfg : BBConfig) (oracle : Nat → Nat → AttemptResult) :
    ∀ (paths : List String) (i : Nat) (st : BBState),
      (runBBPaths cfg oracle paths i st).1.stats.total =
        st.stats.total + respondedCount (runBBPaths cfg oracle paths i st).2 := by
  intro paths
  induction paths with
  | nil => intro i st; simp [runBBPaths, respondedCount]
  | cons p ps ih =>
      intro i st
      rw [runBBPaths]
      simp only [respondedCount, List.countP_cons]
      have h1 := scanUrlBB_total cfg (oracle i) p st
      have h2 := ih (i + 1) (scanUrlBB cfg (oracle i) p st).1
      simp only [respondedCount] at h2
      rw [h2, h1]
      split_ifs <;> omega

/-- Counterexample to C1: a run of one candidate whose every attempt times
out classifies the candidate as a terminal TransientError, yet `total` is
0 while the claimed sum Hit + NotFound + TransientError + otherStatus is
1, so `RunStats.total` is not that sum. -/
theorem runBB_total_claim_cex :
    (runBB ⟨"http://t", 1, 10⟩ ["a"] [] (fun _ _ => .timeoutErr)).1.stats.total ≠
      claimedTotalCount
        (runBB ⟨"http://t", 1, 10⟩ ["a"] [] (fun _ _ => .timeoutErr)).2 := by
  decide

/-- Whether a recorded v6 per-candidate exit is a received HTTP response
(transient exhaustion is `none`, a non-network exception is `fatal`). -/
def respondsV6 (e : Option V6Exit) : Bool :=
  match e with
  | some (.responded _) => true
  | _ => false

/-- Number of v6 candidates whose exit is an HTTP response. -/
def respondedCountV6 (l : List (Option V6Exit)) : Nat :=
  l.countP respondsV6

/-- The v6 run fold of `runV6Paths`, additionally recording each
candidate's exit. -/
def runV6PathsOut (target : String) (maxRetries : Nat)
    (oracle : Nat → Nat → AttemptResult) :
    List String → Nat → V6State → V6State × List (Option V6Exit)
  | [], _, st => (st, [])
  | p :: ps, i, st =>
      let r := scanUrlV6 target maxRetries (oracle i) p st
      let rest := runV6PathsOut target maxRetries oracle ps (i + 1) r.1
      (rest.1, r.2 :: rest.2)

/-- `FuzzerPyEngine.run` with recorded per-candidate exits. -/
def runV6Out (target : String) (maxRetries : Nat) (words exts : List String)
    (oracle : Nat → Nat → AttemptResult) :
    V6State × List (Option V6Exit) :=
  runV6PathsOut target maxRetries oracle (expandPayloads words exts) 0
    V6State.init

theorem runV6PathsOut_state (target : String) (maxRetries : Nat)
    (oracle : Nat → Nat → AttemptResult) :
    ∀ (paths : List String) (i : Nat) (st : V6State),
      (runV6PathsOut target maxRetries oracle paths i st).1 =
        runV6Paths target maxRetries oracle paths i st := by
  intro paths
  induction paths with
  | nil => intro i st; rfl
  | cons p ps ih => intro i st; exact ih (i + 1) _

theorem attemptStepV6_response_total (maxRetries attempt : Nat)
    (url : String) (status : Nat) (location : Option String) (bodyLen : Nat)
    (st : V6State) :
    (attemptStepV6 maxRetries attempt url (.response status location bodyLen)
        st).1.stats.total = st.stats.total + 1 ∧
    respondsV6 (attemptStepV6 maxRetries attempt url
        (.response status location bodyLen) st).2 = true := by
  rw [attemptStepV6]
  split_ifs <;> exact ⟨rfl, rfl⟩

theorem attemptsV6_total (maxRetries : Nat) (oracle : Nat → AttemptResult)
    (url : String) :
    ∀ (fuel attempt : Nat) (st : V6State),
      (attemptsV6 maxRetries oracle url attempt fuel st).1.stats.total =
        st.stats.total +
          (if respondsV6 (attemptsV6 maxRetries oracle url attempt fuel st).2
           then 1 else 0) := by
  intro fuel
  induction fuel with
  | zero => intro attempt st; rfl
  | succ n ih =>
      intro attempt st
      rw [attemptsV6]
      cases hres : oracle attempt with
      | response status location bodyLen =>
          obtain ⟨h1, h2⟩ := attemptStepV6_response_total maxRetries attempt
            url status location bodyLen st
          rcases hs : attemptStepV6 maxRetries attempt url
            (AttemptResult.response status location bodyLen) st with ⟨st1, e⟩
          rw [hs] at h1 h2
          cases e with
          | none => simp [respondsV6] at h2
          | some e2 =>
              have h3 : respondsV6 (some e2) = true := h2
              simp only [h3]
              simp
              exact h1
      | timeoutErr =>
          simp only [attemptStepV6]
          by_cases hA : attempt = maxRetries
          · simp only [if_pos hA]
            rw [ih]
          · simp only [if_neg hA]
            rw [ih]
      | clientErr =>
          simp only [attemptStepV6]
          by_cases hA : attempt = maxRetries
          · simp only [if_pos hA]
            rw [ih]
          · simp only [if_neg hA]
            rw [ih]
      | otherExc =>
          simp only [attemptStepV6]
          rfl

theorem scanUrlV6_total (target : String) (maxRetries : Nat)
    (oracle : Nat → AttemptResult) (path : String) (st : V6State) :
    (scanUrlV6 target maxRetries oracle path st).1.stats.total =
      st.stats.total +
        (if respondsV6 (scanUrlV6 target maxRetries oracle path st).2 then 1
         else 0) :=
  attemptsV6_total maxRetries oracle (target ++ "/" ++ path)
    (maxRetries + 1) 0 st

theorem runV6PathsOut_total (target : String) (maxRetries : Nat)
    (oracle : Nat → Nat → AttemptResult) :
    ∀ (paths : List String) (i : Nat) (st : V6State),
      (runV6PathsOut target maxRetries oracle paths i st).1.stats.total =
        st.stats.total +
          respondedCountV6
            (runV6PathsOut target maxRetries oracle paths i st).2 := by
  intro paths
  induction paths with
  | nil => intro i st; simp [runV6PathsOut, respondedCountV6]
  | cons p ps ih =>
      intro i st
      rw [runV6PathsOut]
      simp only [respondedCountV6, List.countP_cons]
      have h1 := scanUrlV6_total target maxRetries (oracle i) p st
      have h2 := ih (i + 1) (scanUrlV6 target maxRetries (oracle i) p st).1
      simp only [respondedCountV6] at h2
      rw [h2, h1]
      split_ifs <;> omega

/-- C1 (amended): in both engines, `RunStats.total` equals the number of
dispatched, non-skipped candidates whose classification is an HTTP
response — Hit plus NotFound plus otherStatus — while candidates ending in
a terminal TransientError or FatalAbort are not counted in `total`; the
exit-recording v6 run produces the same final state as `runV6`. -/
theorem runBB_total_eq_responses (cfg : BBConfig) (words exts : List String)
    (oracle : Nat → Nat → AttemptResult) (target : String) (maxRetries : Nat)
    (words2 exts2 : List String) (oracle2 : Nat → Nat → AttemptResult) :
    ((runBB cfg words exts oracle).1.stats.total =
      respondedCount (runBB cfg words exts oracle).2) ∧
    ((runV6Out target maxRetries words2 exts2 oracle2).1.stats.total =
      respondedCountV6 (runV6Out target maxRetries words2 exts2 oracle2).2) ∧
    ((runV6Out target maxRetries words2 exts2 oracle2).1 =
      runV6 target maxRetries words2 exts2 oracle2) := by
  refine ⟨?_, ?_, ?_⟩
  · have h := runBBPaths_total cfg oracle (expandPayloads words exts) 0
      BBState.init
    simpa [runBB, BBState.init] using h
  · have h := runV6PathsOut_total target maxRetries oracle2
      (expandPayloads words2 exts2) 0 V6State.init
    simpa [runV6Out, V6State.init] using h
  · exact runV6PathsOut_state target maxRetries oracle2
      (expandPayloads words2 exts2) 0 V6State.init

/-- The invariant of C10 for the bug bounty engine state. -/
def BBInv (st : BBState) : Prop :=
  st.foundUrls.length = st.stats.s200 + st.stats.s403 + st.stats.s302

/-- The invariant of C10 for the v6 engine state. -/
def V6Inv (st : V6State) : Prop :=
  st.foundUrls.length = st.stats.s200 + st.stats.s403 + st.stats.s302

theorem attemptStepBB_inv (url : String) (res : AttemptResult) (st : BBState)
    (h : BBInv st) : BBInv (attemptStepBB url res st).1 := by
  cases res with
  | response status location bodyLen =>
      rw [BBInv] at h ⊢
      rw [attemptStepBB]
      split_ifs <;> simp <;> omega
  | timeoutErr => exact h
  | clientErr => exact h
  | otherExc => exact h

theorem attemptsBB_inv (oracle : Nat → AttemptResult) (url : String) :
    ∀ (fuel attempt : Nat) (st : BBState), BBInv st →
      BBInv (attemptsBB oracle url attempt fuel st).1 := by
  intro fuel
  induction fuel with
  | zero => intro attempt st h; exact h
  | succ n ih =>
      intro attempt st h
      rw [attemptsBB]
      have hstep := attemptStepBB_inv url (oracle attempt) st h
      rcases hs : attemptStepBB url (oracle attempt) st with ⟨st1, o⟩
      rw [hs] at hstep
      cases o with
      | some o2 => exact hstep
      | none => exact ih (attempt + 1) st1 hstep

theorem scanUrlBB_inv (cfg : BBConfig) (oracle : Nat → AttemptResult)
    (path : String) (st : BBState) (h : BBInv st) :
    BBInv (scanUrlBB cfg oracle path st).1 := by
  rw [scanUrlBB]
  by_cases hstop : st.shouldStop
  · simpa [hstop] using h
  · have hmain := attemptsBB_inv oracle (cfg.target ++ "/" ++ path)
      (cfg.maxRetries + 1) 0 st h
    simp only [hstop, if_false, Bool.false_eq_true]
    split_ifs with htrip
    · exact hmain
    · exact hmain

theorem runBBPaths_inv (cfg : BBConfig) (oracle : Nat → Nat → AttemptResult) :
    ∀ (paths : List String) (i : Nat) (st : BBState), BBInv st →
      BBInv (runBBPaths cfg oracle paths i st).1 := by
  intro paths
  induction paths with
  | nil => intro i st h; exact h
  | cons p ps ih =>
      intro i st h
      exact ih (i + 1) _ (scanUrlBB_inv cfg (oracle i) p st h)

theorem attemptStepV6_inv (maxRetries attempt : Nat) (url : String)
    (res : AttemptResult) (st : V6State) (h : V6Inv st) :
    V6Inv (attemptStepV6 maxRetries attempt url res st).1 := by
  cases res with
  | response status location bodyLen =>
      rw [V6Inv] at h ⊢
      rw [attemptStepV6]
      split_ifs <;> simp <;> omega
  | timeoutErr =>
      rw [V6Inv] at h ⊢
      rw [attemptStepV6]
      split_ifs <;> exact h
  | clientErr =>
      rw [V6Inv] at h ⊢
      rw [attemptStepV6]
      split_ifs <;> exact h
  | otherExc => exact h

theorem attemptsV6_inv (maxRetries : Nat) (oracle : Nat → AttemptResult)
    (url : String) :
    ∀ (fuel attempt : Nat) (st : V6State), V6Inv st →
      V6Inv (attemptsV6 maxRetries oracle url attempt fuel st).1 := by
  intro fuel
  induction fuel with
  | zero => intro attempt st h; exact h
  | succ n ih =>
      intro attempt st h
      rw [attemptsV6]
      have hstep := attemptStepV6_inv maxRetries attempt url (oracle attempt) st h
      rcases hs : attemptStepV6 maxRetries attempt url (oracle attempt) st
        with ⟨st1, e⟩
      rw [hs] at hstep
      cases e with
      | some e2 => exact hstep
      | none => exact ih (attempt + 1) st1 hstep

theorem runV6Paths_inv (target : String) (maxRetries : Nat)
    (oracle : Nat → Nat → AttemptResult) :
    ∀ (paths : List String) (i : Nat) (st : V6State), V6Inv st →
      V6Inv (runV6Paths target maxRetries oracle paths i st) := by
  intro paths
  induction paths with
  | nil => intro i st h; exact h
  | cons p ps ih =>
      intro i st h
      exact ih (i + 1) _
        (attemptsV6_inv maxRetries (oracle i) (target ++ "/" ++ p)
          (maxRetries + 1) 0 st h)

/-- C10: in both engines, after any run the length of `found_urls` equals
the sum of the 200, 403 and redirect bucket counters, and a 404 response,
a timeout, a client error or another exception never appends to
`found_urls`. -/
theorem foundUrls_length_eq_hit_buckets (cfg : BBConfig)
    (words exts : List String) (oracle : Nat → Nat → AttemptResult)
    (target : String) (maxRetries : Nat) (words2 exts2 : List String)
    (oracle2 : Nat → Nat → AttemptResult) :
    ((runBB cfg words exts oracle).1.foundUrls.length =
      (runBB cfg words exts oracle).1.stats.s200 +
        (runBB cfg words exts oracle).1.stats.s403 +
        (runBB cfg words exts oracle).1.stats.s302) ∧
    ((runV6 target maxRetries words2 exts2 oracle2).foundUrls.length =
      (runV6 target maxRetries words2 exts2 oracle2).stats.s200 +
        (runV6 target maxRetries words2 exts2 oracle2).stats.s403 +
        (runV6 target maxRetries words2 exts2 oracle2).stats.s302) ∧
    (∀ (url : String) (location : Option String) (bodyLen : Nat)
        (st : BBState),
      (attemptStepBB url (.response 404 location bodyLen) st).1.foundUrls =
        st.foundUrls) ∧
    (∀ (url : String) (st : BBState),
      (attemptStepBB url .timeoutErr st).1.foundUrls = st.foundUrls ∧
      (attemptStepBB url .clientErr st).1.foundUrls = st.foundUrls ∧
      (attemptStepBB url .otherExc st).1.foundUrls = st.foundUrls) := by
  refine ⟨?_, ?_, ?_, ?_⟩
  · exact runBBPaths_inv cfg oracle (expandPayloads words exts) 0
      BBState.init rfl
  · exact runV6Paths_inv target maxRetries oracle2
      (expandPayloads words2 exts2) 0 V6State.init rfl
  · intro url location bodyLen st
    rfl
  · intro url st
    exact ⟨rfl, rfl, rfl⟩

/-- Counterexample to C3: in the v6 base engine (`FuzzerPyEngine`) a 307
redirect response is not classified as a Hit: the URL is not appended to
`found_urls` and the redirect bucket stays 0 — only `total` is counted. -/
theorem v6_redirect307_no_hit_cex :
    (scanUrlV6 "http://t" 2 (fun _ => .response 307 (some "/x") 0) "a"
        V6State.init).1.foundUrls = [] ∧
    (scanUrlV6 "http://t" 2 (fun _ => .response 307 (some "/x") 0) "a"
        V6State.init).1.stats.s302 = 0 ∧
    (scanUrlV6 "http://t" 2 (fun _ => .response 307 (some "/x") 0) "a"
        V6State.init).1.stats.total = 1 := by
  decide

/-- C3 (amended): in the bug bounty engine every response with status in
{301, 302, 307, 308} yields a Hit whose recorded location is the Location
header, or the sentinel "Unknown" when absent, and the URL is appended to
the found set (with the location in the output line); in the v6 base
engine this holds only for 301 and 302, while 307 and 308 yield no Hit
and no append. -/
theorem redirect_hit_location (url : String) (status : Nat)
    (location : Option String) (bodyLen : Nat) (st : BBState) (stv : V6State)
    (maxRetries attempt : Nat)
    (h : status = 301 ∨ status = 302 ∨ status = 307 ∨ status = 308) :
    ((attemptStepBB url (.response status location bodyLen) st).1.foundUrls =
        st.foundUrls ++ [url] ∧
      (attemptStepBB url (.response status location bodyLen) st).2 =
        some (.hit status (some (location.getD "Unknown"))) ∧
      (attemptStepBB url (.response status location bodyLen) st).1.savedLines =
        st.savedLines ++
          ["[" ++ toString status ++ "] " ++ url ++ " -> " ++
            location.getD "Unknown"]) ∧
    (status = 301 ∨ status = 302 →
      (attemptStepV6 maxRetries attempt url (.response status location bodyLen)
          stv).1.foundUrls = stv.foundUrls ++ [url]) ∧
    (status = 307 ∨ status = 308 →
      (attemptStepV6 maxRetries attempt url (.response status location bodyLen)
          stv).1.foundUrls = stv.foundUrls) := by
  rcases h with h | h | h | h <;> subst h <;>
    refine ⟨⟨rfl, rfl, rfl⟩, ?_, ?_⟩ <;> intro h2 <;>
      first
        | rfl
        | exact absurd h2 (by decide)

/-- Witness for C3 at status 307 with no Location header. -/
theorem redirect_hit_location_witness :
    (attemptStepBB "u" (.response 307 none 0) BBState.init).1.foundUrls =
        BBState.init.foundUrls ++ ["u"] ∧
    (attemptStepBB "u" (.response 307 none 0) BBState.init).2 =
      some (.hit 307 (some "Unknown")) ∧
    (attemptStepV6 2 0 "u" (.response 307 none 0) V6State.init).1.foundUrls =
      V6State.init.foundUrls :=
  have h := redirect_hit_location "u" 307 none 0 BBState.init V6State.init 2 0
    (Or.inr (Or.inr (Or.inl rfl)))
  ⟨h.1.1, h.1.2.1, h.2.2 (Or.inl rfl)⟩

theorem attemptStepBB_requests (url : String) (res : AttemptResult)
    (st : BBState) :
    (attemptStepBB url res st).1.requestsIssued = st.requestsIssued + 1 := by
  cases res with
  | response status location bodyLen =>
      rw [attemptStepBB]
      split_ifs <;> rfl
  | timeoutErr => rfl
  | clientErr => rfl
  | otherExc => rfl

theorem attemptsBB_requests (oracle : Nat → AttemptResult) (url : String) :
    ∀ (fuel attempt : Nat) (st : BBState),
      (attemptsBB oracle url attempt fuel st).1.requestsIssued ≤
        st.requestsIssued + fuel := by
  intro fuel
  induction fuel with
  | zero => intro attempt st; simp [attemptsBB]
  | succ n ih =>
      intro attempt st
      rw [attemptsBB]
      have hreq := attemptStepBB_requests url (oracle attempt) st
      rcases hs : attemptStepBB url (oracle attempt) st with ⟨st1, o⟩
      rw [hs] at hreq
      simp only at hreq
      cases o with
      | some o2 => simp only; omega
      | none =>
          have := ih (attempt + 1) st1
          simp only
          omega

theorem attemptsBB_allTransient (oracle : Nat → AttemptResult) (url : String)
    (ht : ∀ a, oracle a = .timeoutErr ∨ oracle a = .clientErr) :
    ∀ (fuel attempt : Nat) (st : BBState),
      (attemptsBB oracle url attempt fuel st).1.stats.errors =
        st.stats.errors + fuel ∧
      (attemptsBB oracle url attempt fuel st).2 = .transientError := by
  intro fuel
  induction fuel with
  | zero => intro attempt st; exact ⟨rfl, rfl⟩
  | succ n ih =>
      intro attempt st
      rw [attemptsBB]
      rcases ht attempt with h | h <;> rw [h] <;>
        · simp only [attemptStepBB, BBState.bumpErrors]
          have := ih (attempt + 1)
            (BBState.bumpErrors { st with requestsIssued := st.requestsIssued + 1 })
          simp only [BBState.bumpErrors] at this
          refine ⟨?_, this.2⟩
          rw [this.1]
          omega

theorem attemptStepV6_requests (maxRetries attempt : Nat) (url : String)
    (res : AttemptResult) (st : V6State) :
    (attemptStepV6 maxRetries attempt url res st).1.requestsIssued =
      st.requestsIssued + 1 := by
  cases res with
  | response status location bodyLen =>
      rw [attemptStepV6]
      split_ifs <;> rfl
  | timeoutErr =>
      rw [attemptStepV6]
      split_ifs <;> rfl
  | clientErr =>
      rw [attemptStepV6]
      split_ifs <;> rfl
  | otherExc => rfl

theorem attemptsV6_requests (maxRetries : Nat) (oracle : Nat → AttemptResult)
    (url : String) :
    ∀ (fuel attempt : Nat) (st : V6State),
      (attemptsV6 maxRetries oracle url attempt fuel st).1.requestsIssued ≤
        st.requestsIssued + fuel := by
  intro fuel
  induction fuel with
  | zero => intro attempt st; simp [attemptsV6]
  | succ n ih =>
      intro attempt st
      rw [attemptsV6]
      have hreq := attemptStepV6_requests maxRetries attempt url
        (oracle attempt) st
      rcases hs : attemptStepV6 maxRetries attempt url (oracle attempt) st
        with ⟨st1, e⟩
      rw [hs] at hreq
      simp only at hreq
      cases e with
      | some e2 => simp only; omega
      | none =>
          have := ih (attempt + 1) st1
          simp only
          omega

theorem attemptsV6_allTransient (maxRetries : Nat)
    (oracle : Nat → AttemptResult) (url : String)
    (ht : ∀ a, oracle a = .timeoutErr ∨ oracle a = .clientErr) :
    ∀ (fuel attempt : Nat) (st : V6State), attempt + fuel = maxRetries + 1 →
      (attemptsV6 maxRetries oracle url attempt fuel st).1.stats.errors =
        st.stats.errors + (if fuel = 0 then 0 else 1) ∧
      (attemptsV6 maxRetries oracle url attempt fuel st).2 = none := by
  intro fuel
  induction fuel with
  | zero => intro attempt st hsum; exact ⟨by simp [attemptsV6], rfl⟩
  | succ n ih =>
      intro attempt st hsum
      rw [attemptsV6]
      rcases ht attempt with h | h <;> rw [h] <;> simp only [attemptStepV6]
      all_goals
        by_cases hA : attempt = maxRetries
        case pos =>
          have hn : n = 0 := by omega
          subst hn
          rw [if_pos hA]
          exact ⟨by simp [attemptsV6], rfl⟩
        case neg =>
          rw [if_neg hA]
          have hn : n ≠ 0 := by omega
          have h2 := ih (attempt + 1)
            ({ st with requestsIssued := st.requestsIssued + 1 }) (by omega)
          refine ⟨?_, h2.2⟩
          rw [h2.1]
          simp [hn]

/-- Counterexample to C5: in the bug bounty engine with `max_retries = 1`,
one candidate whose two attempts both time out ends with `errors = 2`, not
1 — the error counter is bumped once per failed attempt, not once per
candidate — although exactly one terminal TransientError is recorded. -/
theorem bb_errors_per_attempt_cex :
    (scanUrlBB ⟨"http://t", 1, 10⟩ (fun _ => .timeoutErr) "a"
        BBState.init).1.stats.errors = 2 ∧
    ¬ (scanUrlBB ⟨"http://t", 1, 10⟩ (fun _ => .timeoutErr) "a"
        BBState.init).1.stats.errors = 1 ∧
    (scanUrlBB ⟨"http://t", 1, 10⟩ (fun _ => .timeoutErr) "a"
        BBState.init).2 = some .transientError := by
  decide

/-- C5 (amended): per candidate at most `maxRetries + 1` request attempts
are issued in either engine and, when every attempt fails transiently,
exactly one terminal TransientError outcome is recorded for the candidate;
the error counter, however, increments once per failed attempt in the bug
bounty engine (a fully failing candidate adds `maxRetries + 1`), while the
v6 base engine increments it exactly once per exhausted candidate. -/
theorem retry_bound_and_error_recording (cfg : BBConfig)
    (oracle : Nat → AttemptResult) (path : String) (st : BBState)
    (target : String) (maxRetries : Nat) (oracle2 : Nat → AttemptResult)
    (path2 : String) (stv : V6State)
    (ht : ∀ a, oracle a = .timeoutErr ∨ oracle a = .clientErr)
    (ht2 : ∀ a, oracle2 a = .timeoutErr ∨ oracle2 a = .clientErr)
    (hstop : st.shouldStop = false) :
    (∀ oracle3 : Nat → AttemptResult,
      (scanUrlBB cfg oracle3 path st).1.requestsIssued ≤
        st.requestsIssued + (cfg.maxRetries + 1)) ∧
    (scanUrlBB cfg oracle path st).2 = some Outcome.transientError ∧
    (scanUrlBB cfg oracle path st).1.stats.errors =
      st.stats.errors + (cfg.maxRetries + 1) ∧
    (scanUrlV6 target maxRetries oracle2 path2 stv).1.stats.errors =
      stv.stats.errors + 1 ∧
    (∀ oracle4 : Nat → AttemptResult,
      (scanUrlV6 target maxRetries oracle4 path2 stv).1.requestsIssued ≤
        stv.requestsIssued + (maxRetries + 1)) := by
  refine ⟨?_, ?_, ?_, ?_, ?_⟩
  · intro oracle3
    rw [scanUrlBB]
    simp only [hstop, Bool.false_eq_true, if_false]
    have hb := attemptsBB_requests oracle3 (cfg.target ++ "/" ++ path)
      (cfg.maxRetries + 1) 0 st
    split_ifs <;> simpa using hb
  · rw [scanUrlBB]
    simp only [hstop, Bool.false_eq_true, if_false]
    have hb := (attemptsBB_allTransient oracle (cfg.target ++ "/" ++ path) ht
      (cfg.maxRetries + 1) 0 st).2
    simp [hb]
  · rw [scanUrlBB]
    simp only [hstop, Bool.false_eq_true, if_false]
    have hb := (attemptsBB_allTransient oracle (cfg.target ++ "/" ++ path) ht
      (cfg.maxRetries + 1) 0 st).1
    split_ifs <;> simpa using hb
  · have hb := (attemptsV6_allTransient maxRetries oracle2
      (target ++ "/" ++ path2) ht2 (maxRetries + 1) 0 stv (by omega)).1
    simpa [scanUrlV6] using hb
  · intro oracle4
    have hb := attemptsV6_requests maxRetries oracle4 (target ++ "/" ++ path2)
      (maxRetries + 1) 0 stv
    simpa [scanUrlV6] using hb

/-- Witness for C5 with all-timeout oracles. -/
theorem retry_bound_and_error_recording_witness :
    (scanUrlBB ⟨"http://t", 1, 3⟩ (fun _ => .timeoutErr) "a" BBState.init).2 =
        some Outcome.transientError ∧
    (scanUrlBB ⟨"http://t", 1, 3⟩ (fun _ => .timeoutErr) "a"
        BBState.init).1.stats.errors = BBState.init.stats.errors + 2 ∧
    (scanUrlV6 "http://t" 2 (fun _ => .timeoutErr) "a"
        V6State.init).1.stats.errors = V6State.init.stats.errors + 1 :=
  have h := retry_bound_and_error_recording ⟨"http://t", 1, 3⟩
    (fun _ => .timeoutErr) "a" BBState.init "http://t" 2
    (fun _ => .timeoutErr) "a" V6State.init (fun _ => Or.inl rfl)
    (fun _ => Or.inl rfl) rfl
  ⟨h.2.1, h.2.2.1, h.2.2.2.1⟩

theorem rlRun_cons (mi d : ℚ) (ds : List ℚ) (st : RLState) :
    rlRun mi (d :: ds) st =
      rlRun mi ds (rlWait mi { st with clock := st.clock + d }) := rfl

theorem rlWait_clock_advance (mi : ℚ) (st : RLState) (d : ℚ) (hd : 0 ≤ d)
    (h : st.lastRequestTime ≤ st.clock) :
    st.clock ≤ (rlWait mi { st with clock := st.clock + d }).clock := by
  show st.clock ≤
    (if st.clock + d - st.lastRequestTime < mi then
      st.clock + d + (mi - (st.clock + d - st.lastRequestTime))
     else st.clock + d)
  split_ifs with hlt
  · linarith
  · linarith

theorem rlWait_stamped_gain (mi : ℚ) (st : RLState) (d : ℚ) (hd : 0 ≤ d)
    (h : st.lastRequestTime = st.clock) :
    st.clock + mi ≤ (rlWait mi { st with clock := st.clock + d }).clock := by
  show st.clock + mi ≤
    (if st.clock + d - st.lastRequestTime < mi then
      st.clock + d + (mi - (st.clock + d - st.lastRequestTime))
     else st.clock + d)
  rw [h]
  split_ifs with hlt
  · linarith
  · linarith

theorem rlRun_clock_gain (mi : ℚ) : ∀ (advances : List ℚ),
    (∀ d ∈ advances, 0 ≤ d) → ∀ st : RLState,
      st.lastRequestTime = st.clock →
      st.clock + advances.length * mi ≤ (rlRun mi advances st).clock ∧
      (rlRun mi advances st).lastRequestTime = (rlRun mi advances st).clock := by
  intro advances
  induction advances with
  | nil =>
      intro _ st h
      refine ⟨by simp [rlRun], h⟩
  | cons d ds ih =>
      intro hadv st h
      rw [rlRun_cons]
      have h1 := rlWait_stamped_gain mi st d (hadv d (by simp)) h
      have h3 := ih (fun x hx => hadv x (by simp [hx]))
        (rlWait mi { st with clock := st.clock + d }) rfl
      refine ⟨?_, h3.2⟩
      have h4 := h3.1
      simp only [List.length_cons]
      push_cast
      push_cast at h4
      nlinarith [h1, h4]

/-- C8: `RateLimiter.wait` uses the minimum interval `1 / max_per_second`,
sleeps the remaining delta when the gap since the last stamped admission
is smaller, stamps the new admission time and increments the count; hence
`N = 1 + advances.length` sequential calls take wall time at least
`(N - 1) / max_per_second`. -/
theorem rate_governor_wait_bound (maxRate : ℚ) (advances : List ℚ) (d0 : ℚ)
    (st : RLState) (hadv : ∀ d ∈ advances, 0 ≤ d) (hd0 : 0 ≤ d0)
    (hst : st.lastRequestTime ≤ st.clock) :
    minInterval maxRate = 1 / maxRate ∧
    (∀ (mi : ℚ) (s : RLState),
      (rlWait mi s).requestCount = s.requestCount + 1 ∧
      (rlWait mi s).lastRequestTime = (rlWait mi s).clock) ∧
    st.clock + advances.length * minInterval maxRate ≤
      (rlRun (minInterval maxRate) (d0 :: advances) st).clock := by
  refine ⟨rfl, fun mi s => ⟨rfl, rfl⟩, ?_⟩
  rw [rlRun_cons]
  have h1 := rlWait_clock_advance (minInterval maxRate) st d0 hd0 hst
  have h2 := rlRun_clock_gain (minInterval maxRate) advances hadv
    (rlWait (minInterval maxRate) { st with clock := st.clock + d0 }) rfl
  have h3 := h2.1
  linarith [h1, h3]

/-- Witness for C8: three calls with no ambient delay, `max_per_second`
equal to 2, starting from the zero state. -/
theorem rate_governor_wait_bound_witness :
    (⟨0, 0, 0⟩ : RLState).clock +
        (([(0 : ℚ), 0] : List ℚ).length : ℚ) * minInterval 2 ≤
      (rlRun (minInterval 2) ((0 : ℚ) :: [(0 : ℚ), 0]) ⟨0, 0, 0⟩).clock :=
  (rate_governor_wait_bound 2 [0, 0] 0 ⟨0, 0, 0⟩
    (by simp) le_rfl le_rfl).2.2

theorem countP_set_le {α : Type} (p : α → Bool) :
    ∀ (l : List α) (i : Nat) (a : α),
      (l.set i a).countP p ≤ l.countP p + (if p a then 1 else 0) := by
  intro l
  induction l with
  | nil => intro i a; simp
  | cons b bs ih =>
      intro i a
      cases i with
      | zero =>
          simp only [List.set_cons_zero, List.countP_cons]
          split_ifs <;> omega
      | succ j =>
          simp only [List.set_cons_succ, List.countP_cons]
          have hb := ih j a
          split_ifs at hb ⊢ <;> omega

theorem holdersCount_replicate_waiting (n : Nat) :
    holdersCount (List.replicate n ProbePhase.waiting) = 0 := by
  induction n with
  | zero => rfl
  | succ m ih =>
      rw [List.replicate_succ]
      rw [holdersCount, List.countP_cons]
      rw [holdersCount] at ih
      simp [ih]

theorem countP_set_le_one {α : Type} (p : α → Bool) (l : List α) (i : Nat)
    (a : α) : (l.set i a).countP p ≤ l.countP p + 1 := by
  have hb := countP_set_le p l i a
  split_ifs at hb <;> omega

theorem countP_set_le_of_false {α : Type} (p : α → Bool) (l : List α)
    (i : Nat) (a : α) (ha : p a = false) :
    (l.set i a).countP p ≤ l.countP p := by
  have hb := countP_set_le p l i a
  rw [ha] at hb
  simpa using hb

theorem semStep_holders (cap : Nat) (ps qs : List ProbePhase)
    (hstep : SemStep cap ps qs) (h : holdersCount ps ≤ cap) :
    holdersCount qs ≤ cap := by
  cases hstep with
  | acquire i hi hcap =>
      have hb := countP_set_le_one (fun p => p = ProbePhase.holding) ps i
        ProbePhase.holding
      rw [holdersCount] at hcap ⊢
      omega
  | release i hi =>
      have hb := countP_set_le_of_false (fun p => p = ProbePhase.holding) ps i
        ProbePhase.done rfl
      rw [holdersCount] at h ⊢
      omega

/-- C9: in the interleaved semantics of the semaphore gating
`FuzzerPyEngine.scan_url`, every state reachable from `n` initially
waiting probe tasks has at most `cap` probes holding a concurrency slot
(hence issuing network I/O) simultaneously. -/
theorem semaphore_holders_le_cap (cap n : Nat) (ps : List ProbePhase)
    (h : semReachable cap n ps) : holdersCount ps ≤ cap := by
  induction h with
  | refl =>
      rw [holdersCount_replicate_waiting]
      exact Nat.zero_le cap
  | tail hsteps hstep ih => exact semStep_holders cap _ _ hstep ih

/-- Witness for C9: one acquire step from two waiting probes under cap 1. -/
theorem semaphore_holders_le_cap_witness :
    holdersCount
        ((List.replicate 2 ProbePhase.waiting).set 0 ProbePhase.holding) ≤ 1 :=
  semaphore_holders_le_cap 1 2 _
    (Relation.ReflTransGen.single
      (SemStep.acquire (List.replicate 2 ProbePhase.waiting) 0 rfl (by decide)))

/-- Program counter of one in-flight bug bounty `scan_url` task, split at
its await points: the initial `should_stop` check, one awaited
`session.get` per attempt, the trailing consecutive-error check (which
runs synchronously with the last attempt), and completion. -/
inductive TaskPhase where
  | start
  | attempt (idx fuel : Nat)
  | check
  | finished
deriving DecidableEq, Repr

/-- One atomic step of an in-flight `scan_url` task over the shared engine
state: the same body as `scanUrlBB`, but other tasks may interleave
between steps, as asyncio allows between awaits. -/
def taskStepBB (cfg : BBConfig) (oracle : Nat → AttemptResult) (url : String)
    (ph : TaskPhase) (st : BBState) : TaskPhase × BBState :=
  match ph with
  | .start =>
      if st.shouldStop then (.finished, st)
      else (.attempt 0 (cfg.maxRetries + 1), st)
  | .attempt idx fuel =>
      match fuel with
      | 0 => (.check, st)
      | f + 1 =>
          match attemptStepBB url (oracle idx) st with
          | (st1, some _) => (.check, st1)
          | (st1, none) => (.attempt (idx + 1) f, st1)
  | .check =>
      if cfg.stopOnErrors ≤ st.stats.consecutiveErrors then
        (.finished, { st with shouldStop := true, warnings := st.warnings + 1 })
      else (.finished, st)
  | .finished => (.finished, st)

/-- Execute a schedule over concurrently in-flight tasks: each schedule
entry names the task performing its next atomic step; task `i` scans URL
`urls[i]` with attempt results from `oracle i`. -/
def schedBB (cfg : BBConfig) (oracle : Nat → Nat → AttemptResult)
    (urls : List String) :
    List Nat → List TaskPhase × BBState → List TaskPhase × BBState
  | [], s => s
  | i :: rest, (phases, st) =>
      match phases[i]? with
      | none => schedBB cfg oracle urls rest (phases, st)
      | some ph =>
          let r := taskStepBB cfg (oracle i) (urls.getD i "") ph st
          schedBB cfg oracle urls rest (phases.set i r.1, r.2)

/-- Counterexample to C2: the warning is not one-time. With threshold 2
and two tasks already in flight when the breaker trips (a legal asyncio
interleaving: both tasks pass the `should_stop` check before either
fails), each task observes the threshold at its own trailing check and
prints the warning, so the warning is emitted twice. -/
theorem breaker_warning_reemitted_cex :
    (schedBB ⟨"http://t", 1, 2⟩ (fun _ _ => .timeoutErr)
        ["http://t/a", "http://t/b"]
        [0, 1, 0, 0, 0, 0, 1, 1, 1, 1]
        ([.start, .start], BBState.init)).2.warnings = 2 ∧
    ¬ (schedBB ⟨"http://t", 1, 2⟩ (fun _ _ => .timeoutErr)
        ["http://t/a", "http://t/b"]
        [0, 1, 0, 0, 0, 0, 1, 1, 1, 1]
        ([.start, .start], BBState.init)).2.warnings = 1 := by
  decide

/-- C2 (amended): when the consecutive-error counter reaches the
configured threshold at a probe completion, the run control transitions
to Stopping and the warning is emitted — once per probe that observes the
threshold at its trailing check (exactly once under sequential dispatch;
probes already in flight at the trip may re-emit it) — and every probe
that observes Stopping before starting issues no network request and
leaves the state unchanged; in particular, with threshold 5 and all
candidates timing out, the sequential run of 10 candidates stops no later
than the 3rd candidate (6 attempt timeouts), emits the warning exactly
once, and the remaining 7 candidates are never dispatched. -/
theorem circuitBreaker_trips_and_skips :
    (∀ (cfg : BBConfig) (oracle : Nat → AttemptResult) (path : String)
        (st : BBState), st.shouldStop = true →
      scanUrlBB cfg oracle path st = (st, none)) ∧
    (∀ (cfg : BBConfig) (oracle : Nat → AttemptResult) (url : String)
        (st : BBState), st.shouldStop = true →
      taskStepBB cfg oracle url .start st = (.finished, st)) ∧
    (∀ (cfg : BBConfig) (oracle : Nat → AttemptResult) (path : String)
        (st : BBState),
      cfg.stopOnErrors ≤
          (scanUrlBB cfg oracle path st).1.stats.consecutiveErrors →
        (scanUrlBB cfg oracle path st).1.shouldStop = true) ∧
    ((runBB ⟨"http://t", 1, 5⟩
        ["c0", "c1", "c2", "c3", "c4", "c5", "c6", "c7", "c8", "c9"] []
        (fun _ _ => .timeoutErr)).1.shouldStop = true ∧
      (runBB ⟨"http://t", 1, 5⟩
        ["c0", "c1", "c2", "c3", "c4", "c5", "c6", "c7", "c8", "c9"] []
        (fun _ _ => .timeoutErr)).1.warnings = 1 ∧
      (runBB ⟨"http://t", 1, 5⟩
        ["c0", "c1", "c2", "c3", "c4", "c5", "c6", "c7", "c8", "c9"] []
        (fun _ _ => .timeoutErr)).1.requestsIssued = 6 ∧
      ((runBB ⟨"http://t", 1, 5⟩
        ["c0", "c1", "c2", "c3", "c4", "c5", "c6", "c7", "c8", "c9"] []
        (fun _ _ => .timeoutErr)).2.drop 3 = List.replicate 7 none)) := by
  refine ⟨?_, ?_, ?_, by decide⟩
  · intro cfg oracle path st hstop
    rw [scanUrlBB]
    simp [hstop]
  · intro cfg oracle url st hstop
    rw [taskStepBB]
    simp [hstop]
  · intro cfg oracle path st htrip
    by_cases hstop : st.shouldStop
    · rw [scanUrlBB]
      simp [hstop]
    · rw [scanUrlBB] at htrip ⊢
      simp only [hstop, Bool.false_eq_true, if_false] at htrip ⊢
      split_ifs at htrip ⊢ with hc
      · rfl
      · exact absurd htrip hc

/-- Witness for C2: a stopped state is skipped unchanged, and a state two
timeouts below the threshold trips after one fully failing candidate. -/
theorem circuitBreaker_trips_and_skips_witness :
    scanUrlBB ⟨"http://t", 1, 5⟩ (fun _ => .timeoutErr) "p"
        { BBState.init with shouldStop := true } =
      ({ BBState.init with shouldStop := true }, none) ∧
    taskStepBB ⟨"http://t", 1, 5⟩ (fun _ => .timeoutErr) "http://t/p"
        .start { BBState.init with shouldStop := true } =
      (.finished, { BBState.init with shouldStop := true }) ∧
    (scanUrlBB ⟨"http://t", 1, 5⟩ (fun _ => .timeoutErr) "p"
        { BBState.init with stats := ⟨0, 0, 0, 0, 0, 3, 3⟩ }).1.shouldStop =
      true :=
  ⟨circuitBreaker_trips_and_skips.1 ⟨"http://t", 1, 5⟩ (fun _ => .timeoutErr)
      "p" { BBState.init with shouldStop := true } rfl,
   circuitBreaker_trips_and_skips.2.1 ⟨"http://t", 1, 5⟩
      (fun _ => .timeoutErr) "http://t/p"
      { BBState.init with shouldStop := true } rfl,
   circuitBreaker_trips_and_skips.2.2.1 ⟨"http://t", 1, 5⟩
      (fun _ => .timeoutErr) "p"
      { BBState.init with stats := ⟨0, 0, 0, 0, 0, 3, 3⟩ } (by decide)⟩
